import Mathlib

/-!
Verification of the TrendRadar briefing-server core
(`briefing_server/data.py` and `briefing_server/utils.py`) against its
natural-language specification.

The Python code is shallowly embedded: dictionaries become association
lists that keep Python's insertion-order semantics, timestamps become
naturals, and the three pieces of external machinery the code calls into
(`datetime.strptime`, `re.search`, `re.compile`) are passed in as explicit
function parameters, since they live outside this repository.
-/

namespace TrendRadar

/-! ### Association lists with Python dict semantics

Python dicts preserve insertion order: assigning to an existing key keeps
its position, assigning to a fresh key appends it at the end.  `alookup`
is `d.get(k)`, `aset` is `d[k] = v`, `dictUpdate` is `d.update(new)`. -/

def alookup {α : Type} : List (String × α) → String → Option α
  | [], _ => none
  | (k, v) :: rest, key => if k = key then some v else alookup rest key

def aset {α : Type} : List (String × α) → String → α → List (String × α)
  | [], key, v => [(key, v)]
  | (k, w) :: rest, key, v =>
      if k = key then (k, v) :: rest else (k, w) :: aset rest key v

def dictUpdate {α : Type} (d new : List (String × α)) : List (String × α) :=
  new.foldl (fun acc p => aset acc p.1 p.2) d

/-! ### Data model (`storage_manager` payloads, §6 of the spec)

`TitleItem` mirrors the item objects served by the external storage
collaborator: `first_time`, `last_time` are optional (falling back to
`crawl_time`), `ranks` may be absent or empty (falling back to the single
`rank`), `url`/`mobile_url` may be absent (falling back to `""`). -/

structure TitleItem where
  title : String
  rank : Nat
  ranks : List Nat
  url : Option String
  mobile_url : Option String
  count : Nat
  crawl_time : Nat
  first_time : Option Nat
  last_time : Option Nat
  rank_timeline : List (Nat × Nat)
  deriving Repr, DecidableEq

structure NewsData where
  items : List (String × List TitleItem)
  id_to_name : List (String × String)
  deriving Repr, DecidableEq

/-- Models `item.ranks or [item.rank]` — an absent or empty rank list falls back
to the singleton of the scalar rank. -/
def effRanks (item : TitleItem) : List Nat :=
  if item.ranks.isEmpty then [item.rank] else item.ranks

/-- Models `item.first_time or item.crawl_time`. -/
def effFirst (item : TitleItem) : Nat :=
  item.first_time.getD item.crawl_time

/-- Models `item.last_time or item.crawl_time`. -/
def effLast (item : TitleItem) : Nat :=
  item.last_time.getD item.crawl_time

/-- The full per-(source, title) aggregation record built by
`get_titles_by_date_range` (the `aggregated_title_info` entries). -/
structure TitleInfo where
  first_time : Nat
  last_time : Nat
  count : Nat
  ranks : List Nat
  url : String
  mobileUrl : String
  rank_timeline : List (Nat × Nat)
  deriving Repr, DecidableEq

/-- The minimal display entry stored in `aggregated_results`. -/
structure ResultEntry where
  ranks : List Nat
  url : String
  mobileUrl : String
  deriving Repr, DecidableEq

/-- The three accumulators of `get_titles_by_date_range`:
`aggregated_results`, `final_id_to_name`, `aggregated_title_info`. -/
structure AggState where
  results : List (String × List (String × ResultEntry))
  id_to_name : List (String × String)
  title_info : List (String × List (String × TitleInfo))
  deriving Repr, DecidableEq

def alookup2 {α : Type} (d : List (String × List (String × α)))
    (src title : String) : Option α :=
  match alookup d src with
  | none => none
  | some m => alookup m title

def aset2 {α : Type} (d : List (String × List (String × α)))
    (src title : String) (v : α) : List (String × List (String × α)) :=
  aset d src (aset ((alookup d src).getD []) title v)

/-! ### Query / regex filtering (lines 59–68 of `data.py`) -/

/-- Case-insensitive substring test over character lists:
`needle in haystack` after `.lower()` on both sides. -/
def subSeq (needle : List Char) : List Char → Bool
  | [] => needle.isEmpty
  | c :: rest => needle.isPrefixOf (c :: rest) || subSeq needle rest

def lowerChars (s : String) : List Char := s.data.map Char.toLower

/-- Truthiness of `re.search(pattern, title, re.IGNORECASE)`, supplied by the
caller: the regex engine is Python stdlib, outside this repository. -/
def RegexSearch : Type := String → String → Bool

/-- The two AND filters of the aggregation loop: `query.lower() not in
title.lower()` and `re.search(include_regex, title, IGNORECASE)`.  Empty
strings are falsy in Python, so an empty query/regex imposes nothing. -/
def passesFilters (rsearch : RegexSearch) (query include_regex : Option String)
    (title : String) : Bool :=
  (match query with
   | none => true
   | some q => if q = "" then true else subSeq (lowerChars q) (lowerChars title))
  &&
  (match include_regex with
   | none => true
   | some r => if r = "" then true else rsearch r title)

/-! ### The merge step (lines 71–112 of `data.py`) -/

/-- First observation of a (source, title) pair: the `info` dict built at
lines 97–105. -/
def createInfo (item : TitleItem) : TitleInfo :=
  { first_time := effFirst item
    last_time := effLast item
    count := item.count
    ranks := effRanks item
    url := item.url.getD ""
    mobileUrl := item.mobile_url.getD ""
    rank_timeline := item.rank_timeline }

/-- Repeat observation: the in-place merge at lines 73–92.  The rank
extension filters the whole batch against the existing list before
appending, so duplicates inside one batch survive. -/
def mergeItem (existing : TitleInfo) (item : TitleItem) : TitleInfo :=
  { first_time := if effFirst item < existing.first_time then effFirst item
                  else existing.first_time
    last_time := if existing.last_time < effLast item then effLast item
                 else existing.last_time
    count := existing.count + item.count
    ranks := existing.ranks ++ (effRanks item).filter (fun r => ! existing.ranks.contains r)
    url := existing.url
    mobileUrl := existing.mobileUrl
    rank_timeline := existing.rank_timeline ++ item.rank_timeline }

/-- One title item folded into the accumulators.  In the Python source the
merge branch touches only `aggregated_title_info`, but the `"ranks"` entry
of the corresponding `aggregated_results` dict is the very same list
object (both were bound to `ranks` at creation, line 96), so the in-place
`extend` at line 77 is visible through the results map as well; `url` and
`mobileUrl` are never reassigned after creation in either map. -/
def processItem (rsearch : RegexSearch) (query include_regex : Option String)
    (source_id : String) (st : AggState) (item : TitleItem) : AggState :=
  if ! passesFilters rsearch query include_regex item.title then st
  else
    match alookup2 st.title_info source_id item.title with
    | some existing =>
        let newInfo := mergeItem existing item
        { st with
          title_info := aset2 st.title_info source_id item.title newInfo
          results :=
            match alookup2 st.results source_id item.title with
            | some r => aset2 st.results source_id item.title
                          { r with ranks := newInfo.ranks }
            | none => st.results }
    | none =>
        let info := createInfo item
        { st with
          title_info := aset2 st.title_info source_id item.title info
          results := aset2 st.results source_id item.title
                       ⟨info.ranks, info.url, info.mobileUrl⟩ }

/-- Models `current_platform_ids is not None and source_id not in
current_platform_ids` (line 49): the title aggregator skips a source iff
an id list was given — even an empty one — and the source is not in it. -/
def sourceSkipped (current_platform_ids : Option (List String))
    (source_id : String) : Bool :=
  match current_platform_ids with
  | none => false
  | some l => ! l.contains source_id

/-- One `(source_id, news_list)` pair of a day's snapshot (lines 48–112):
platform filter, creation of the two empty inner dicts keyed on
`aggregated_results` membership, then the item fold. -/
def processSource (rsearch : RegexSearch) (query include_regex : Option String)
    (current_platform_ids : Option (List String))
    (st : AggState) (entry : String × List TitleItem) : AggState :=
  if sourceSkipped current_platform_ids entry.1 then st
  else
    let st' :=
      if alookup st.results entry.1 = none then
        { st with results := aset st.results entry.1 []
                  title_info := aset st.title_info entry.1 [] }
      else st
    entry.2.foldl (processItem rsearch query include_regex entry.1) st'

/-- The per-day snapshot fetch: `storage_manager.get_today_all_data` may
raise (`.error`), return nothing (`.ok none`) or return a payload.  Days
are abstract naturals; `+ 1` is `timedelta(days=1)`. -/
def TitleStorage : Type := Nat → Except Unit (Option NewsData)

/-- One iteration of the range loop (lines 38–118): a raised exception is
caught and leaves the accumulators untouched; an absent or item-less
payload is skipped; otherwise the id→name map is updated and every source
is folded in. -/
def processDay (storage : TitleStorage) (rsearch : RegexSearch)
    (query include_regex : Option String)
    (current_platform_ids : Option (List String))
    (st : AggState) (day : Nat) : AggState :=
  match storage day with
  | .error _ => st
  | .ok none => st
  | .ok (some nd) =>
      if nd.items.isEmpty then st
      else
        let st' := { st with id_to_name := dictUpdate st.id_to_name nd.id_to_name }
        nd.items.foldl
          (processSource rsearch query include_regex current_platform_ids) st'

/-- The inclusive day range `start, start+1, …, end` of the `while current
<= end` loop; empty when `start > end`. -/
def daysRange (start e : Nat) : List Nat :=
  List.range' start (e + 1 - start)

/-- Abstraction of `datetime.strptime(s, "%Y-%m-%d")`: Python's date parser is
stdlib, so it enters the model as an arbitrary partial map from date
strings to day numbers (`none` = `strptime` raises). -/
def DateParse : Type := String → Option Nat

def emptyAgg : AggState := ⟨[], [], []⟩

/-- Embedding of `get_titles_by_date_range` (lines 9–124 of `data.py`).  The outer
`try` makes an unparsable bound return three empty dicts; the body is the
fold of `processDay` over the inclusive day range.  (The `quiet` flag only
silences a `print` and has no semantic effect.) -/
def get_titles_by_date_range (parseDate : DateParse) (storage : TitleStorage)
    (rsearch : RegexSearch) (start_date end_date : String)
    (current_platform_ids : Option (List String))
    (query include_regex : Option String) : AggState :=
  match parseDate start_date, parseDate end_date with
  | some s, some e =>
      (daysRange s e).foldl
        (processDay storage rsearch query include_regex current_platform_ids)
        emptyAgg
  | _, _ => emptyAgg

/-! ### RSS collection (`get_rss_by_date_range`, lines 127–185) -/

structure FeedItem where
  title : String
  url : String
  feed_name : Option String
  published_at : String
  summary : String
  deriving Repr, DecidableEq

structure RssData where
  items : List (String × List FeedItem)
  deriving Repr, DecidableEq

structure FlatFeedEntry where
  title : String
  url : String
  feed_name : String
  feed_id : String
  published_at : String
  summary : String
  deriving Repr, DecidableEq

def RssStorage : Type := Nat → Except Unit (Option RssData)

/-- Models `if allowed_feed_ids and feed_id not in allowed_feed_ids` (line 154):
the feed collector skips only when the id list is truthy, so an empty
list restricts nothing — unlike `sourceSkipped` above. -/
def feedSkipped (allowed_feed_ids : Option (List String)) (feed_id : String) : Bool :=
  match allowed_feed_ids with
  | none => false
  | some l => ! l.isEmpty && ! l.contains feed_id

/-- Models `item.feed_name or feed_id`: absent or empty name falls back to the id. -/
def effFeedName (item : FeedItem) (feed_id : String) : String :=
  match item.feed_name with
  | none => feed_id
  | some n => if n = "" then feed_id else n

def processFeedItem (rsearch : RegexSearch) (query include_regex : Option String)
    (feed_id : String) (acc : List FlatFeedEntry) (item : FeedItem) :
    List FlatFeedEntry :=
  if ! passesFilters rsearch query include_regex item.title then acc
  else
    acc ++ [{ title := item.title
              url := item.url
              feed_name := effFeedName item feed_id
              feed_id := feed_id
              published_at := item.published_at
              summary := item.summary }]

def processFeed (rsearch : RegexSearch) (query include_regex : Option String)
    (allowed_feed_ids : Option (List String))
    (acc : List FlatFeedEntry) (entry : String × List FeedItem) :
    List FlatFeedEntry :=
  if feedSkipped allowed_feed_ids entry.1 then acc
  else entry.2.foldl (processFeedItem rsearch query include_regex entry.1) acc

/-- One day of the RSS loop (lines 150–177): exceptions are swallowed
(`pass`), an absent or item-less payload contributes nothing. -/
def processRssDay (storage : RssStorage) (rsearch : RegexSearch)
    (query include_regex : Option String)
    (allowed_feed_ids : Option (List String))
    (acc : List FlatFeedEntry) (day : Nat) : List FlatFeedEntry :=
  match storage day with
  | .error _ => acc
  | .ok none => acc
  | .ok (some rd) =>
      if rd.items.isEmpty then acc
      else rd.items.foldl
        (processFeed rsearch query include_regex allowed_feed_ids) acc

/-- Embedding of `get_rss_by_date_range` (lines 127–185 of `data.py`). -/
def get_rss_by_date_range (parseDate : DateParse) (storage : RssStorage)
    (rsearch : RegexSearch) (start_date end_date : String)
    (allowed_feed_ids : Option (List String))
    (query include_regex : Option String) : List FlatFeedEntry :=
  match parseDate start_date, parseDate end_date with
  | some s, some e =>
      (daysRange s e).foldl
        (processRssDay storage rsearch query include_regex allowed_feed_ids) []
  | _, _ => []

/-! ### Rule parsing (`briefing_server/utils.py`)

Python string primitives, re-expressed over character lists so every
parse is kernel-computable: `pyStrip` is `str.strip()`, `splitNL` /
`splitNN` are `str.split("\n")` / `str.split("\n\n")` (non-overlapping,
left to right), `upperStr` is `str.upper()`. -/

def pyIsSpace (c : Char) : Bool :=
  c = ' ' || c = '\t' || c = '\n' || c = '\r' || c = '\x0b' || c = '\x0c'

def trimChars (cs : List Char) : List Char :=
  ((cs.dropWhile pyIsSpace).reverse.dropWhile pyIsSpace).reverse

def pyStrip (s : String) : String := ⟨trimChars s.data⟩

def upperStr (s : String) : String := ⟨s.data.map Char.toUpper⟩

def strStarts (s p : String) : Bool := p.data.isPrefixOf s.data

def strEnds (s p : String) : Bool := p.data.isSuffixOf s.data

/-- Python `s[1:-1]`: drop the first and last character. -/
def innerOf (s : String) : String := ⟨(s.data.drop 1).dropLast⟩

def dropStr (s : String) (n : Nat) : String := ⟨s.data.drop n⟩

def splitNL : List Char → List (List Char)
  | [] => [[]]
  | '\n' :: rest => [] :: splitNL rest
  | c :: rest =>
      match splitNL rest with
      | h :: t => (c :: h) :: t
      | [] => [[c]]

def splitNN : List Char → List (List Char)
  | [] => [[]]
  | '\n' :: '\n' :: rest => [] :: splitNN rest
  | c :: rest =>
      match splitNN rest with
      | h :: t => (c :: h) :: t
      | [] => [[c]]

/-- Split at the first `"=>"`, if any: models the `'=>' in word` test plus
`re.split(r'\s*=>\s*', word, 1)` (the surrounding-whitespace absorption
is made redundant by the `.strip()` both parts receive afterwards). -/
def splitArrow : List Char → Option (List Char × List Char)
  | [] => none
  | '=' :: '>' :: rest => some ([], rest)
  | c :: rest => (splitArrow rest).map (fun p => (c :: p.1, p.2))

/-- Phase 1 of `_parse_word` (lines 16–22 of `utils.py`): returns
`(word_config, display_name)`. -/
def splitDisplay (word : String) : String × Option String :=
  match splitArrow word.data with
  | none => (pyStrip word, none)
  | some (l, r) =>
      let d := trimChars r
      (⟨trimChars l⟩, if d.isEmpty then none else some ⟨d⟩)

/-- Split a character list at its LAST `'/'`, returning the part before
and the part after. -/
def splitLastSlash : List Char → Option (List Char × List Char)
  | [] => none
  | c :: rest =>
      match splitLastSlash rest with
      | some p => some (c :: p.1, p.2)
      | none => if c = '/' then some ([], rest) else none

def isFlagChar (c : Char) : Bool := 'a' ≤ c && c ≤ 'z'

/-- Models `re.match(r'^/(.+)/[a-z]*$', word_config)` and its group 1.  The
greedy `(.+)` makes the match split at the last `'/'`; since `[a-z]`
excludes `'/'` no earlier slash can succeed where the last fails, `(.+)`
never crosses `'\n'`, and the input is already stripped so the
`$`-before-trailing-newline case cannot arise. -/
def regexExtract (word_config : String) : Option String :=
  match word_config.data with
  | '/' :: rest =>
      match splitLastSlash rest with
      | some (inner, flags) =>
          if ! inner.isEmpty && inner.all (fun c => c != '\n') && flags.all isFlagChar
          then some ⟨inner⟩ else none
      | none => none
  | _ => none

structure WordToken where
  word : String
  is_regex : Bool
  pattern : Option String
  display_name : Option String
  deriving Repr, DecidableEq

/-- Success of `re.compile(pattern_str, re.IGNORECASE)`, supplied by the
caller: the regex compiler is Python stdlib, outside this repository.
A compiled pattern is represented by its source string. -/
def RegexCompiles : Type := String → Bool

/-- Embedding of `_parse_word` (lines 8–46 of `utils.py`): `=>` alias split, then the
`/…/flags` wrapper test; a wrapped word whose inner text fails to compile
degrades to a literal token carrying the wrapped `word_config`. -/
def _parse_word (compileOk : RegexCompiles) (word : String) : WordToken :=
  let pr := splitDisplay word
  match regexExtract pr.1 with
  | some pattern_str =>
      if compileOk pattern_str then
        { word := pattern_str, is_regex := true, pattern := some pattern_str
          display_name := pr.2 }
      else
        { word := pr.1, is_regex := false, pattern := none, display_name := pr.2 }
  | none =>
      { word := pr.1, is_regex := false, pattern := none, display_name := pr.2 }

structure WordGroup where
  required : List WordToken
  normal : List WordToken
  group_key : String
  display_name : Option String
  max_count : Nat
  deriving Repr, DecidableEq

/-- The mutable state threaded through the block loop of
`parse_frequency_rules`: the three outputs plus `current_section`. -/
structure RuleState where
  processed_groups : List WordGroup
  filter_words : List WordToken
  global_filters : List String
  current_section : String
  deriving Repr, DecidableEq

/-- Python `int(word[1:])` for the `@N` directive, modelled on plain digit
strings (a non-numeric remainder raises and is swallowed; a value that is
not positive fails the `count > 0` test). -/
def pyInt (s : String) : Option Nat :=
  if ! s.data.isEmpty && s.data.all Char.isDigit
  then some (s.data.foldl (fun n c => n * 10 + (c.toNat - 48)) 0) else none

/-- Per-group accumulation of the word-classification loop
(lines 97–113 of `utils.py`); `filter_words` is the run-wide list. -/
structure GroupAcc where
  filter_words : List WordToken
  required : List WordToken
  normal : List WordToken
  max_count : Nat

/-- Classify one line by its prefix, in the fixed order `@`, `!`, `+`,
else-normal. -/
def classifyWord (compileOk : RegexCompiles) (acc : GroupAcc) (word : String) :
    GroupAcc :=
  if strStarts word "@" then
    match pyInt (dropStr word 1) with
    | some n => if 0 < n then { acc with max_count := n } else acc
    | none => acc
  else if strStarts word "!" then
    { acc with filter_words :=
        acc.filter_words ++ [_parse_word compileOk (dropStr word 1)] }
  else if strStarts word "+" then
    { acc with required := acc.required ++ [_parse_word compileOk (dropStr word 1)] }
  else
    { acc with normal := acc.normal ++ [_parse_word compileOk word] }

def joinWith (sep : List Char) (parts : List String) : String :=
  ⟨List.intercalate sep (parts.map String.data)⟩

/-- Models `w.get("display_name") or w["word"]` (line 127). -/
def tokenDisplayPart (w : WordToken) : String :=
  match w.display_name with
  | none => w.word
  | some d => if d = "" then w.word else d

/-- Models `if group_alias:` — `None` and `""` are both falsy. -/
def aliasTruthy (group_alias : Option String) : Bool :=
  match group_alias with
  | none => false
  | some a => a != ""

/-- The group record built at lines 115–139 of `utils.py`: `group_key`
from the normal tokens when any exist else the required ones, and
`display_name` from the truthy alias else the per-token alias-or-text
parts joined with `" / "`. -/
def mkGroup (group_alias : Option String) (acc : GroupAcc) : WordGroup :=
  { required := acc.required
    normal := acc.normal
    group_key :=
      if ! acc.normal.isEmpty then joinWith [' '] (acc.normal.map WordToken.word)
      else joinWith [' '] (acc.required.map WordToken.word)
    display_name :=
      if aliasTruthy group_alias then group_alias
      else
        let parts := (acc.normal ++ acc.required).map tokenDisplayPart
        if parts.isEmpty then none else some (joinWith [' ', '/', ' '] parts)
    max_count := acc.max_count }

/-- Models `if group_required_words or group_normal_words:` — a group is emitted
only when one of the two token lists is non-empty. -/
def emitGroup (group_alias : Option String) (acc : GroupAcc) (st' : RuleState) :
    RuleState :=
  if acc.required.isEmpty && acc.normal.isEmpty then st'
  else { st' with processed_groups :=
          st'.processed_groups ++ [mkGroup group_alias acc] }

/-- One blank-line-delimited block of the rule text (lines 64–139 of
`utils.py`): line strip/comment filtering, section-header handling,
group-alias extraction, prefix classification, and conditional emission. -/
def processBlock (compileOk : RegexCompiles) (st : RuleState) (block : String) :
    RuleState :=
  let lines := ((splitNL block.data).map (fun cs => (⟨trimChars cs⟩ : String))).filter
      (fun l => l != "" && ! strStarts l "#")
  if lines.isEmpty then st
  else
    let secStep :=
      match lines with
      | l0 :: rest =>
          if strStarts l0 "[" && strEnds l0 "]" then
            let section_name := upperStr (innerOf l0)
            if section_name = "GLOBAL_FILTER" || section_name = "WORD_GROUPS" then
              (section_name, rest)
            else (st.current_section, lines)
          else (st.current_section, lines)
      | [] => (st.current_section, lines)
    let cur := secStep.1
    let lines' := secStep.2
    if cur = "GLOBAL_FILTER" then
      { st with current_section := cur
                global_filters := st.global_filters ++ lines'.filter
                  (fun l => ! (strStarts l "!" || strStarts l "+" || strStarts l "@")) }
    else
      let aliasStep :=
        match lines' with
        | w0 :: rest =>
            if strStarts w0 "[" && strEnds w0 "]" then
              let potential_alias := pyStrip (innerOf w0)
              if upperStr potential_alias != "GLOBAL_FILTER" &&
                 upperStr potential_alias != "WORD_GROUPS" then
                (some potential_alias, rest)
              else (none, lines')
            else (none, lines')
        | [] => (none, lines')
      let group_alias := aliasStep.1
      let acc := aliasStep.2.foldl (classifyWord compileOk)
        ⟨st.filter_words, [], [], 0⟩
      emitGroup group_alias acc
        { st with current_section := cur, filter_words := acc.filter_words }

/-- Embedding of `parse_frequency_rules` (lines 48–141 of `utils.py`): join the input
documents with a blank line, re-split on blank lines, and fold the blocks
through `processBlock` starting in the `WORD_GROUPS` section. -/
def parse_frequency_rules (compileOk : RegexCompiles) (rule_strings : List String) :
    List WordGroup × List WordToken × List String :=
  let full_content := List.intercalate ['\n', '\n'] (rule_strings.map String.data)
  let word_groups := ((splitNN full_content).map
      (fun g => (⟨trimChars g⟩ : String))).filter (fun g => g != "")
  let st := word_groups.foldl (processBlock compileOk) ⟨[], [], [], "WORD_GROUPS"⟩
  (st.processed_groups, st.filter_words, st.global_filters)

def mapVals {α β : Type} (f : α → β) (d : List (String × α)) : List (String × β) :=
  d.map (fun p => (p.1, f p.2))

def projEntry (i : TitleInfo) : ResultEntry := ⟨i.ranks, i.url, i.mobileUrl⟩

def ResultsMirror (st : AggState) : Prop :=
  st.results = mapVals (mapVals projEntry) st.title_info

/-- Every aggregated full record of the state satisfies `Q`. -/
def RecordsSat (Q : TitleInfo → Prop) (st : AggState) : Prop :=
  ∀ src m, alookup st.title_info src = some m →
    ∀ t i, alookup m t = some i → Q i

/-- Every title item the storage can ever deliver satisfies `R`. -/
def StorageItemsOK (R : TitleItem → Prop) (storage : TitleStorage) : Prop :=
  ∀ day nd, storage day = .ok (some nd) →
    ∀ p ∈ nd.items, ∀ it ∈ p.2, R it

/-! ### Concrete test fixtures -/

/-- A date parser fixture for three consecutive days. -/
def cPD : DateParse := fun s =>
  if s = "2024-01-01" then some 0
  else if s = "2024-01-02" then some 1
  else if s = "2024-01-03" then some 2
  else none

/-- A regex-search fixture that matches everything. -/
def cRS : RegexSearch := fun _ _ => true

/-- Day-1 observation of title `"t"`: single rank 3, url `"u"`. -/
def itOne : TitleItem := ⟨"t", 3, [], some "u", none, 1, 10, none, none, []⟩

/-- Day-2 observation of the same title: rank list `[3, 5]`. -/
def itTwo : TitleItem := ⟨"t", 5, [3, 5], none, none, 2, 20, none, none, []⟩

/-- An observation whose own rank list `[5, 5]` carries a duplicate. -/
def itDup : TitleItem := ⟨"t", 5, [5, 5], none, none, 2, 20, none, none, []⟩

/-- A malformed observation claiming `first_time = 2` and `last_time = 1`. -/
def itBad : TitleItem := ⟨"t", 3, [], none, none, 1, 0, some 2, some 1, []⟩

def ndOf (it : TitleItem) : NewsData := ⟨[("s", [it])], [("s", "S")]⟩

def stor12 : TitleStorage := fun d =>
  if d = 0 then .ok (some (ndOf itOne))
  else if d = 1 then .ok (some (ndOf itTwo))
  else .ok none

def storDup : TitleStorage := fun d =>
  if d = 0 then .ok (some (ndOf itOne))
  else if d = 1 then .ok (some (ndOf itDup))
  else .ok none

def storBad : TitleStorage := fun d =>
  if d = 0 then .ok (some (ndOf itBad)) else .ok none

def storOne : TitleStorage := fun d =>
  if d = 0 then .ok (some (ndOf itOne)) else .ok none

/-- Day 1 and day 3 deliver data, day 2 raises. -/
def storErr : TitleStorage := fun d =>
  if d = 0 then .ok (some (ndOf itOne))
  else if d = 1 then .error ()
  else if d = 2 then .ok (some (ndOf itTwo))
  else .ok none

def rstorNone : RssStorage := fun _ => .ok none

def itT1T3 : TitleItem := ⟨"t", 0, [], none, none, 0, 0, some 1, some 9, []⟩

def itT2 : TitleItem := ⟨"t", 0, [], none, none, 0, 0, some 5, some 5, []⟩

/-- What holds of every group `parse_frequency_rules` emits: a resolved
(non-null) display name, and the `group_key` derivation from the normal
tokens when any exist, else the required ones. -/
def EmittedGroupOK (g : WordGroup) : Prop :=
  g.display_name.isSome = true
  ∧ g.group_key = (if g.normal.isEmpty
      then joinWith [' '] (g.required.map WordToken.word)
      else joinWith [' '] (g.normal.map WordToken.word))

/-- The display-name resolution read literally from the claim: the
explicit alias when present, otherwise the `=>`-derived aliases of the
contributing tokens joined with `" / "` (which requires every
contributing token to carry one), otherwise null.  This is the
claim-side definition, kept to compare against what
`parse_frequency_rules` actually does. -/
def displayNameClaimed (group_alias : Option String) (toks : List WordToken) :
    Option String :=
  match group_alias with
  | some a => some a
  | none =>
      if toks.all (fun t => t.display_name.isSome) && ! toks.isEmpty then
        some (joinWith [' ', '/', ' '] (toks.map (fun t => t.display_name.getD "")))
      else none

def gAI : WordGroup :=
  { required := []
    normal := [⟨"ai", false, none, some "AI"⟩, ⟨"chip", false, none, none⟩]
    group_key := "ai chip", display_name := some "AI / chip", max_count := 0 }

def gTech : WordGroup :=
  { required := []
    normal := [⟨"ai", false, none, none⟩, ⟨"chip", false, none, none⟩]
    group_key := "ai chip", display_name := some "Tech News", max_count := 0 }

/-! ### Association-list lemmas -/

theorem alookup_aset {α : Type} (d : List (String × α)) (k : String) (v : α)
    (k' : String) :
    alookup (aset d k v) k' = if k = k' then some v else alookup d k' := by
  induction d with
  | nil => by_cases h : k = k' <;> simp [aset, alookup, h]
  | cons p rest ih =>
      obtain ⟨k0, v0⟩ := p
      by_cases h0 : k0 = k
      · subst h0
        by_cases h1 : k0 = k' <;> simp [aset, alookup, h1]
      · by_cases h1 : k0 = k'
        · subst h1
          simp [aset, alookup, h0, Ne.symm h0]
        · simp [aset, alookup, h0, h1, ih]

theorem alookup_mapVals {α β : Type} (f : α → β) (d : List (String × α))
    (k : String) : alookup (mapVals f d) k = (alookup d k).map f := by
  induction d with
  | nil => simp [mapVals, alookup]
  | cons p rest ih =>
      obtain ⟨k0, v0⟩ := p
      by_cases h : k0 = k
      · simp [mapVals, alookup, h]
      · simpa [mapVals, alookup, h] using ih

theorem aset_mapVals {α β : Type} (f : α → β) (d : List (String × α))
    (k : String) (v : α) :
    aset (mapVals f d) k (f v) = mapVals f (aset d k v) := by
  induction d with
  | nil => simp [mapVals, aset]
  | cons p rest ih =>
      obtain ⟨k0, v0⟩ := p
      by_cases h : k0 = k
      · simp [mapVals, aset, h]
      · simpa [mapVals, aset, h] using ih

theorem alookup2_mapVals {α β : Type} (f : α → β)
    (d : List (String × List (String × α))) (s t : String) :
    alookup2 (mapVals (mapVals f) d) s t = (alookup2 d s t).map f := by
  unfold alookup2
  rw [alookup_mapVals]
  cases alookup d s <;> simp [alookup_mapVals]

theorem aset2_mapVals {α β : Type} (f : α → β)
    (d : List (String × List (String × α))) (s t : String) (v : α) :
    aset2 (mapVals (mapVals f) d) s t (f v) = mapVals (mapVals f) (aset2 d s t v) := by
  unfold aset2
  rw [alookup_mapVals]
  cases h : alookup d s with
  | none =>
      have : aset ([] : List (String × β)) t (f v) = mapVals f (aset [] t v) := by
        simp [aset, mapVals]
      simp [this, aset_mapVals]
  | some m => simp [aset_mapVals]

theorem foldl_fun_congr {α β : Type} (f g : α → β → α)
    (h : ∀ a b, f a b = g a b) : ∀ (l : List β) (a : α), l.foldl f a = l.foldl g a := by
  intro l
  induction l with
  | nil => intro a; rfl
  | cons b rest ih => intro a; rw [List.foldl_cons, List.foldl_cons, h, ih]

theorem alookup2_eq_some {α : Type} (d : List (String × List (String × α)))
    (s t : String) (v : α) :
    alookup2 d s t = some v ↔
      ∃ m, alookup d s = some m ∧ alookup m t = some v := by
  unfold alookup2
  cases alookup d s <;> simp

theorem foldl_preserves_mem {α β : Type} (P : α → Prop) (S : β → Prop)
    (f : α → β → α) (hf : ∀ a b, P a → S b → P (f a b)) :
    ∀ (l : List β) (a : α), (∀ b ∈ l, S b) → P a → P (l.foldl f a) := by
  intro l
  induction l with
  | nil => intro a _ ha; exact ha
  | cons b rest ih =>
      intro a hS ha
      rw [List.foldl_cons]
      exact ih _ (fun x hx => hS x (List.mem_cons_of_mem _ hx))
        (hf a b ha (hS b (List.mem_cons_self _ _)))

/-! ### The results map always mirrors the full record map

In the Python source the `"ranks"` list is physically shared between
`aggregated_results` and `aggregated_title_info`, and `url`/`mobileUrl`
are never reassigned after creation, so at every point of the run the
results map is exactly the `{ranks, url, mobileUrl}` projection of the
full map. -/

theorem processItem_mirror (rsearch : RegexSearch) (q rx : Option String)
    (sid : String) (st : AggState) (item : TitleItem) (h : ResultsMirror st) :
    ResultsMirror (processItem rsearch q rx sid st item) := by
  unfold ResultsMirror at h ⊢
  unfold processItem
  cases hf : passesFilters rsearch q rx item.title with
  | false => simp [hf, h]
  | true =>
    cases hlk : alookup2 st.title_info sid item.title with
    | some existing =>
        have hres : alookup2 st.results sid item.title = some (projEntry existing) := by
          rw [h, alookup2_mapVals, hlk]; rfl
        simp only [hf, hlk, hres, Bool.not_true, Bool.false_eq_true, if_false]
        rw [h]
        exact aset2_mapVals projEntry st.title_info sid item.title
          (mergeItem existing item)
    | none =>
        simp only [hf, hlk, Bool.not_true, Bool.false_eq_true, if_false]
        rw [h]
        exact aset2_mapVals projEntry st.title_info sid item.title (createInfo item)

theorem processSource_mirror (rsearch : RegexSearch) (q rx : Option String)
    (pids : Option (List String)) (st : AggState) (entry : String × List TitleItem)
    (h : ResultsMirror st) :
    ResultsMirror (processSource rsearch q rx pids st entry) := by
  unfold processSource
  by_cases hs : sourceSkipped pids entry.1 = true
  · simp [hs, h]
  · simp only [hs, if_false, Bool.false_eq_true]
    have hstep : ResultsMirror (if alookup st.results entry.1 = none then
        { st with results := aset st.results entry.1 []
                  title_info := aset st.title_info entry.1 [] } else st) := by
      by_cases hin : alookup st.results entry.1 = none
      · simp only [hin, if_true]
        unfold ResultsMirror at h ⊢
        simp only [h]
        have : (([] : List (String × ResultEntry)))
            = mapVals projEntry ([] : List (String × TitleInfo)) := rfl
        rw [this, aset_mapVals]
      · simp [hin, h]
    exact foldl_preserves_mem ResultsMirror (fun _ => True) _
      (fun a b ha _ => processItem_mirror rsearch q rx entry.1 a b ha)
      entry.2 _ (fun _ _ => trivial) hstep

theorem processDay_mirror (storage : TitleStorage) (rsearch : RegexSearch)
    (q rx : Option String) (pids : Option (List String)) (st : AggState) (day : Nat)
    (h : ResultsMirror st) :
    ResultsMirror (processDay storage rsearch q rx pids st day) := by
  unfold processDay
  cases storage day with
  | error e => exact h
  | ok o =>
      cases o with
      | none => exact h
      | some nd =>
          by_cases hi : nd.items.isEmpty = true
          · simp [hi, h]
          · simp only [hi, if_false, Bool.false_eq_true]
            exact foldl_preserves_mem ResultsMirror (fun _ => True) _
              (fun a b ha _ => processSource_mirror rsearch q rx pids a b ha)
              nd.items _ (fun _ _ => trivial) h

theorem get_titles_mirror (parseDate : DateParse) (storage : TitleStorage)
    (rsearch : RegexSearch) (sd ed : String) (pids : Option (List String))
    (q rx : Option String) :
    ResultsMirror (get_titles_by_date_range parseDate storage rsearch sd ed pids q rx) := by
  unfold get_titles_by_date_range
  have hempty : ResultsMirror emptyAgg := rfl
  cases parseDate sd with
  | none => exact hempty
  | some s =>
      cases parseDate ed with
      | none => exact hempty
      | some e =>
          exact foldl_preserves_mem ResultsMirror (fun _ => True) _
            (fun a b ha _ => processDay_mirror storage rsearch q rx pids a b ha)
            _ _ (fun _ _ => trivial) hempty

/-! ### Generic per-record invariants over an aggregation run -/

theorem processItem_sat (Q : TitleInfo → Prop) (R : TitleItem → Prop)
    (hc : ∀ it, R it → Q (createInfo it))
    (hm : ∀ i it, Q i → R it → Q (mergeItem i it))
    (rsearch : RegexSearch) (q rx : Option String) (sid : String)
    (st : AggState) (item : TitleItem)
    (hst : RecordsSat Q st) (hit : R item) :
    RecordsSat Q (processItem rsearch q rx sid st item) := by
  unfold processItem
  cases hf : passesFilters rsearch q rx item.title with
  | false => simpa [hf] using hst
  | true =>
    cases hlk : alookup2 st.title_info sid item.title with
    | some existing =>
        obtain ⟨inner, hsrc, hinner⟩ := (alookup2_eq_some _ _ _ _).1 hlk
        simp only [hf, Bool.not_true, Bool.false_eq_true, if_false, hlk]
        intro src m hsm t' i hti
        unfold aset2 at hsm
        rw [alookup_aset] at hsm
        by_cases hss : sid = src
        · subst hss
          rw [if_pos rfl] at hsm
          cases hsm
          rw [hsrc] at hti
          simp only [Option.getD_some] at hti
          rw [alookup_aset] at hti
          by_cases htt : item.title = t'
          · rw [if_pos htt] at hti
            cases hti
            exact hm existing item (hst sid inner hsrc item.title existing hinner) hit
          · rw [if_neg htt] at hti
            exact hst sid inner hsrc t' i hti
        · rw [if_neg hss] at hsm
          exact hst src m hsm t' i hti
    | none =>
        simp only [hf, Bool.not_true, Bool.false_eq_true, if_false, hlk]
        intro src m hsm t' i hti
        unfold aset2 at hsm
        rw [alookup_aset] at hsm
        by_cases hss : sid = src
        · subst hss
          rw [if_pos rfl] at hsm
          cases hsm
          rw [alookup_aset] at hti
          by_cases htt : item.title = t'
          · rw [if_pos htt] at hti
            cases hti
            exact hc item hit
          · rw [if_neg htt] at hti
            cases hd : alookup st.title_info sid with
            | none => rw [hd] at hti; simp [alookup] at hti
            | some inner =>
                rw [hd] at hti
                simp only [Option.getD_some] at hti
                exact hst sid inner hd t' i hti
        · rw [if_neg hss] at hsm
          exact hst src m hsm t' i hti

theorem processSource_sat (Q : TitleInfo → Prop) (R : TitleItem → Prop)
    (hc : ∀ it, R it → Q (createInfo it))
    (hm : ∀ i it, Q i → R it → Q (mergeItem i it))
    (rsearch : RegexSearch) (q rx : Option String) (pids : Option (List String))
    (st : AggState) (entry : String × List TitleItem)
    (hst : RecordsSat Q st) (hall : ∀ it ∈ entry.2, R it) :
    RecordsSat Q (processSource rsearch q rx pids st entry) := by
  unfold processSource
  by_cases hs : sourceSkipped pids entry.1 = true
  · simpa [hs] using hst
  · simp only [hs, if_false, Bool.false_eq_true]
    have hstep : RecordsSat Q (if alookup st.results entry.1 = none then
        { st with results := aset st.results entry.1 []
                  title_info := aset st.title_info entry.1 [] } else st) := by
      by_cases hin : alookup st.results entry.1 = none
      · simp only [hin, if_true]
        intro src m hsm t i hti
        simp only at hsm
        rw [alookup_aset] at hsm
        by_cases hss : entry.1 = src
        · rw [if_pos hss] at hsm
          cases hsm
          simp [alookup] at hti
        · rw [if_neg hss] at hsm
          exact hst src m hsm t i hti
      · simpa [hin] using hst
    exact foldl_preserves_mem (RecordsSat Q) R _
      (fun a b ha hb => processItem_sat Q R hc hm rsearch q rx entry.1 a b ha hb)
      entry.2 _ hall hstep

theorem processDay_sat (Q : TitleInfo → Prop) (R : TitleItem → Prop)
    (hc : ∀ it, R it → Q (createInfo it))
    (hm : ∀ i it, Q i → R it → Q (mergeItem i it))
    (storage : TitleStorage) (rsearch : RegexSearch) (q rx : Option String)
    (pids : Option (List String)) (st : AggState) (day : Nat)
    (hok : StorageItemsOK R storage) (hst : RecordsSat Q st) :
    RecordsSat Q (processDay storage rsearch q rx pids st day) := by
  unfold processDay
  cases hsd : storage day with
  | error e => exact hst
  | ok o =>
      cases o with
      | none => exact hst
      | some nd =>
          by_cases hi : nd.items.isEmpty = true
          · simpa [hi] using hst
          · simp only [hi, if_false, Bool.false_eq_true]
            exact foldl_preserves_mem (RecordsSat Q)
              (fun p => ∀ it ∈ p.2, R it) _
              (fun a b ha hb =>
                processSource_sat Q R hc hm rsearch q rx pids a b ha hb)
              nd.items _ (fun p hp => hok day nd hsd p hp) hst

theorem get_titles_sat (Q : TitleInfo → Prop) (R : TitleItem → Prop)
    (hc : ∀ it, R it → Q (createInfo it))
    (hm : ∀ i it, Q i → R it → Q (mergeItem i it))
    (parseDate : DateParse) (storage : TitleStorage) (rsearch : RegexSearch)
    (sd ed : String) (pids : Option (List String)) (q rx : Option String)
    (hok : StorageItemsOK R storage) :
    RecordsSat Q (get_titles_by_date_range parseDate storage rsearch sd ed pids q rx) := by
  unfold get_titles_by_date_range
  have hempty : RecordsSat Q emptyAgg := by
    intro src m hsm
    simp [emptyAgg, alookup] at hsm
  cases parseDate sd with
  | none => exact hempty
  | some s =>
      cases parseDate ed with
      | none => exact hempty
      | some e =>
          exact foldl_preserves_mem (RecordsSat Q) (fun _ => True) _
            (fun a b ha _ => processDay_sat Q R hc hm storage rsearch q rx pids a b hok ha)
            _ _ (fun _ _ => trivial) hempty

/-- A single-day storage satisfies `StorageItemsOK R` as soon as the one
payload does. -/
theorem storage_single_ok (nd : NewsData) (R : TitleItem → Prop)
    (h : ∀ p ∈ nd.items, ∀ it ∈ p.2, R it) :
    StorageItemsOK R (fun d => if d = 0 then .ok (some nd) else .ok none) := by
  intro day nd' hday p hp it hit
  replace hday : (if day = 0 then Except.ok (some nd) else Except.ok none)
      = Except.ok (some nd') := hday
  by_cases h0 : day = 0
  · rw [if_pos h0] at hday
    injection hday with h1
    injection h1 with h2
    exact h p (h2 ▸ hp) it hit
  · rw [if_neg h0] at hday
    injection hday with h1
    exact Option.noConfusion h1

/-! ### C5 — invalid regex degrades to a literal token -/

/-- C5: whenever the word specification (after the `=>` split) is wrapped
in `/…/` with inner text `inner`, but `inner` fails regex compilation,
`_parse_word` returns the literal token whose text is the original
wrapped specification, with `is_regex = false` and no pattern.  (The Lean
embedding is a total function, reflecting that no exception escapes rule
parsing for any input.) -/
theorem c5_regex_degrade (compileOk : RegexCompiles) (word inner : String)
    (h1 : regexExtract (splitDisplay word).1 = some inner)
    (h2 : compileOk inner = false) :
    _parse_word compileOk word =
      { word := (splitDisplay word).1, is_regex := false, pattern := none
        display_name := (splitDisplay word).2 } := by
  unfold _parse_word
  dsimp only
  rw [h1]
  dsimp only
  rw [h2]
  simp

/-- C5 witness: the token `"/[/"` with a compiler that rejects `"["`. -/
theorem c5_witness :
    regexExtract (splitDisplay "/[/").1 = some "[" ∧
    (fun _ => false : RegexCompiles) "[" = false ∧
    _parse_word (fun _ => false) "/[/" =
      { word := "/[/", is_regex := false, pattern := none, display_name := none } :=
  ⟨rfl, rfl, c5_regex_degrade (fun _ => false) "/[/" "[" rfl rfl⟩

/-! ### C8 — unparsable range bounds yield empty containers -/

/-- C8: if either range bound fails to parse, both range functions
return their empty container and raise nothing. -/
theorem c8_invalid_dates (parseDate : DateParse) (storage : TitleStorage)
    (rstorage : RssStorage) (rsearch : RegexSearch) (sd ed : String)
    (pids allowed : Option (List String)) (q rx : Option String)
    (h : parseDate sd = none ∨ parseDate ed = none) :
    get_titles_by_date_range parseDate storage rsearch sd ed pids q rx = emptyAgg
    ∧ get_rss_by_date_range parseDate rstorage rsearch sd ed allowed q rx = [] := by
  unfold get_titles_by_date_range get_rss_by_date_range
  rcases h with h | h
  · rw [h]
    constructor <;> rfl
  · rw [h]
    cases parseDate sd <;> constructor <;> rfl

/-- C8 witness: the bound `"bad"` does not parse. -/
theorem c8_witness :
    cPD "bad" = none ∧
    get_titles_by_date_range cPD stor12 cRS "2024-01-01" "bad" none none none = emptyAgg ∧
    get_rss_by_date_range cPD rstorNone cRS "2024-01-01" "bad" none none none = [] :=
  ⟨rfl,
   (c8_invalid_dates cPD stor12 rstorNone cRS "2024-01-01" "bad" none none none none
     (Or.inr rfl)).1,
   (c8_invalid_dates cPD stor12 rstorNone cRS "2024-01-01" "bad" none none none none
     (Or.inr rfl)).2⟩

/-! ### C9 — reversed range yields empty results without querying -/

/-- C9: for valid bounds with `start` strictly after `end`, the day list
is empty and both functions return their empty container for EVERY
storage collaborator — the loop body, and hence the snapshot provider,
is never reached. -/
theorem c9_reversed_range (parseDate : DateParse) (a b : Nat) (sd ed : String)
    (h1 : parseDate sd = some a) (h2 : parseDate ed = some b) (hlt : b < a) :
    daysRange a b = []
    ∧ (∀ (storage : TitleStorage) (rsearch : RegexSearch)
        (pids : Option (List String)) (q rx : Option String),
        get_titles_by_date_range parseDate storage rsearch sd ed pids q rx = emptyAgg)
    ∧ (∀ (rstorage : RssStorage) (rsearch : RegexSearch)
        (allowed : Option (List String)) (q rx : Option String),
        get_rss_by_date_range parseDate rstorage rsearch sd ed allowed q rx = []) := by
  have hdr : daysRange a b = [] := by
    unfold daysRange
    have h0 : b + 1 - a = 0 := by omega
    rw [h0]
    rfl
  refine ⟨hdr, ?_, ?_⟩
  · intro storage rsearch pids q rx
    unfold get_titles_by_date_range
    rw [h1, h2]
    dsimp only
    rw [hdr]
    rfl
  · intro rstorage rsearch allowed q rx
    unfold get_rss_by_date_range
    rw [h1, h2]
    dsimp only
    rw [hdr]
    rfl

/-- C9 witness: `2024-01-03` down to `2024-01-01`. -/
theorem c9_witness :
    cPD "2024-01-03" = some 2 ∧ cPD "2024-01-01" = some 0 ∧ (0 : Nat) < 2 ∧
    get_titles_by_date_range cPD stor12 cRS "2024-01-03" "2024-01-01" none none none
      = emptyAgg ∧
    get_rss_by_date_range cPD rstorNone cRS "2024-01-03" "2024-01-01" none none none
      = [] :=
  ⟨rfl, rfl, by decide,
   (c9_reversed_range cPD 2 0 "2024-01-03" "2024-01-01" rfl rfl (by decide)).2.1
     stor12 cRS none none none,
   (c9_reversed_range cPD 2 0 "2024-01-03" "2024-01-01" rfl rfl (by decide)).2.2
     rstorNone cRS none none none⟩

/-! ### C3 — a throwing day is isolated -/

/-- C3: a day whose snapshot retrieval raises leaves the accumulators
untouched, is indistinguishable from a day with no data, and for a 3-day
range whose middle day raises the result is exactly the fold of the first
and third days alone.  (In the embedding every function is total, so no
exception can propagate.) -/
theorem c3_day_failure_isolated (parseDate : DateParse) (storage : TitleStorage)
    (rsearch : RegexSearch) (sd ed : String) (pids : Option (List String))
    (q rx : Option String) (d : Nat)
    (hd : storage d = .error ()) :
    (∀ st, processDay storage rsearch q rx pids st d = st)
    ∧ get_titles_by_date_range parseDate storage rsearch sd ed pids q rx
        = get_titles_by_date_range parseDate
            (fun x => if x = d then .ok none else storage x) rsearch sd ed pids q rx
    ∧ (∀ s, parseDate sd = some s → parseDate ed = some (s + 2) → d = s + 1 →
        get_titles_by_date_range parseDate storage rsearch sd ed pids q rx
          = [s, s + 2].foldl (processDay storage rsearch q rx pids) emptyAgg) := by
  have hskip : ∀ st, processDay storage rsearch q rx pids st d = st := by
    intro st
    unfold processDay
    rw [hd]
  have hpt : ∀ (st : AggState) (x : Nat),
      processDay storage rsearch q rx pids st x
        = processDay (fun y => if y = d then .ok none else storage y)
            rsearch q rx pids st x := by
    intro st x
    by_cases hx : x = d
    · subst hx
      rw [hskip st]
      unfold processDay
      dsimp only
      rw [if_pos rfl]
    · unfold processDay
      dsimp only
      rw [if_neg hx]
  refine ⟨hskip, ?_, ?_⟩
  · unfold get_titles_by_date_range
    cases parseDate sd with
    | none => rfl
    | some s =>
        cases parseDate ed with
        | none => rfl
        | some e =>
            exact foldl_fun_congr _ _ hpt (daysRange s e) emptyAgg
  · intro s h1 h2 h3
    subst h3
    unfold get_titles_by_date_range
    rw [h1, h2]
    dsimp only
    have hdr : daysRange s (s + 2) = [s, s + 1, s + 2] := by
      unfold daysRange
      have h0 : s + 2 + 1 - s = 3 := by omega
      rw [h0]
      rfl
    rw [hdr]
    simp only [List.foldl_cons, List.foldl_nil]
    rw [hskip]

/-- C3 witness: a 3-day range over `storErr`, whose middle day raises. -/
theorem c3_witness :
    storErr 1 = .error () ∧
    get_titles_by_date_range cPD storErr cRS "2024-01-01" "2024-01-03" none none none
      = [0, 2].foldl (processDay storErr cRS none none none) emptyAgg :=
  ⟨rfl,
   (c3_day_failure_isolated cPD storErr cRS "2024-01-01" "2024-01-03" none none none
     1 rfl).2.2 0 rfl rfl rfl⟩

/-! ### C10 — the empty allow-list: exclusion versus no restriction -/

theorem processSource_empty_allowlist (rsearch : RegexSearch) (q rx : Option String)
    (st : AggState) (entry : String × List TitleItem) :
    processSource rsearch q rx (some []) st entry = st := by
  unfold processSource sourceSkipped
  simp [List.contains]

theorem processDay_empty_allowlist (storage : TitleStorage) (rsearch : RegexSearch)
    (q rx : Option String) (st : AggState) (day : Nat)
    (h : st.results = [] ∧ st.title_info = []) :
    (processDay storage rsearch q rx (some []) st day).results = []
    ∧ (processDay storage rsearch q rx (some []) st day).title_info = [] := by
  have hfold : ∀ (l : List (String × List TitleItem)) (a : AggState),
      l.foldl (processSource rsearch q rx (some [])) a = a := by
    intro l
    induction l with
    | nil => intro a; rfl
    | cons b rest ih =>
        intro a
        rw [List.foldl_cons, processSource_empty_allowlist, ih]
  unfold processDay
  cases storage day with
  | error e => exact h
  | ok o =>
      cases o with
      | none => exact h
      | some nd =>
          by_cases hi : nd.items.isEmpty = true
          · simpa [hi] using h
          · simp only [hi, if_false, Bool.false_eq_true, hfold]
            exact h

/-- C10: with the empty id list, the title aggregator excludes every
source — its `results` and `title_info` maps come back empty no matter
what the storage serves — while the feed collector treats the empty list
exactly like no restriction at all. -/
theorem c10_empty_allowlist :
    (∀ (parseDate : DateParse) (storage : TitleStorage) (rsearch : RegexSearch)
       (sd ed : String) (q rx : Option String),
       (get_titles_by_date_range parseDate storage rsearch sd ed (some []) q rx).results = []
       ∧ (get_titles_by_date_range parseDate storage rsearch sd ed (some []) q rx).title_info = [])
    ∧ (∀ (parseDate : DateParse) (rstorage : RssStorage) (rsearch : RegexSearch)
       (sd ed : String) (q rx : Option String),
       get_rss_by_date_range parseDate rstorage rsearch sd ed (some []) q rx
         = get_rss_by_date_range parseDate rstorage rsearch sd ed none q rx) := by
  constructor
  · intro parseDate storage rsearch sd ed q rx
    unfold get_titles_by_date_range
    cases parseDate sd with
    | none =>
        show emptyAgg.results = [] ∧ emptyAgg.title_info = []
        exact ⟨rfl, rfl⟩
    | some s =>
        cases parseDate ed with
        | none =>
            show emptyAgg.results = [] ∧ emptyAgg.title_info = []
            exact ⟨rfl, rfl⟩
        | some e =>
            exact foldl_preserves_mem
              (fun st => st.results = [] ∧ st.title_info = []) (fun _ => True) _
              (fun a b ha _ => processDay_empty_allowlist storage rsearch q rx a b ha)
              _ _ (fun _ _ => trivial)
              (⟨rfl, rfl⟩ : emptyAgg.results = [] ∧ emptyAgg.title_info = [])
  · intro parseDate rstorage rsearch sd ed q rx
    have hfeed : ∀ (acc : List FlatFeedEntry) (entry : String × List FeedItem),
        processFeed rsearch q rx (some []) acc entry
          = processFeed rsearch q rx none acc entry := by
      intro acc entry
      unfold processFeed feedSkipped
      simp
    have hday : ∀ (acc : List FlatFeedEntry) (day : Nat),
        processRssDay rstorage rsearch q rx (some []) acc day
          = processRssDay rstorage rsearch q rx none acc day := by
      intro acc day
      unfold processRssDay
      cases rstorage day with
      | error e => rfl
      | ok o =>
          cases o with
          | none => rfl
          | some rd =>
              by_cases hi : rd.items.isEmpty = true
              · simp [hi]
              · simp only [hi, if_false, Bool.false_eq_true]
                exact foldl_fun_congr _ _ hfeed rd.items acc
    unfold get_rss_by_date_range
    cases parseDate sd with
    | none => rfl
    | some s =>
        cases parseDate ed with
        | none => rfl
        | some e => exact foldl_fun_congr _ _ hday (daysRange s e) []

/-! ### C2 — rank merging: order preservation and (near-)dedup -/

theorem mergeItem_ranks_extend (i : TitleInfo) (it : TitleItem) :
    ∃ tail, (mergeItem i it).ranks = i.ranks ++ tail ∧ ∀ r ∈ tail, r ∉ i.ranks := by
  refine ⟨(effRanks it).filter (fun r => ! i.ranks.contains r), rfl, ?_⟩
  intro r hr
  have h2 := (List.mem_filter.1 hr).2
  simpa using h2

theorem mergeItem_nodup (i : TitleInfo) (it : TitleItem)
    (h1 : i.ranks.Nodup) (h2 : (effRanks it).Nodup) :
    (mergeItem i it).ranks.Nodup := by
  show (i.ranks ++ (effRanks it).filter (fun r => ! i.ranks.contains r)).Nodup
  refine List.Nodup.append h1 (h2.filter _) ?_
  intro a ha hb
  have h3 := (List.mem_filter.1 hb).2
  simp at h3
  exact h3 ha

/-- C2 (amended): each merge only appends, after the existing ranks, rank
values not already present — so first-seen insertion order is preserved
and a value already recorded is never re-added, and when every incoming
observation's own rank list is duplicate-free all aggregated rank lists
stay duplicate-free; the `[3]` then `[3, 5]` example merges to `[3, 5]`.
(A single observation whose own list repeats a value defeats the batch
filter, which is why the duplicate-freedom needs that hypothesis.) -/
theorem c2_amended :
    (∀ (i : TitleInfo) (it : TitleItem),
       ∃ tail, (mergeItem i it).ranks = i.ranks ++ tail ∧ ∀ r ∈ tail, r ∉ i.ranks)
    ∧ (∀ (parseDate : DateParse) (storage : TitleStorage) (rsearch : RegexSearch)
        (sd ed : String) (pids : Option (List String)) (q rx : Option String),
        StorageItemsOK (fun it => (effRanks it).Nodup) storage →
        RecordsSat (fun i => i.ranks.Nodup)
          (get_titles_by_date_range parseDate storage rsearch sd ed pids q rx))
    ∧ alookup2 (get_titles_by_date_range cPD stor12 cRS
        "2024-01-01" "2024-01-02" none none none).title_info "s" "t"
        = some ⟨10, 20, 3, [3, 5], "u", "", []⟩ := by
  refine ⟨mergeItem_ranks_extend, ?_, by decide⟩
  intro parseDate storage rsearch sd ed pids q rx hok
  exact get_titles_sat _ _ (fun it h => h)
    (fun i it hi hit => mergeItem_nodup i it hi hit)
    parseDate storage rsearch sd ed pids q rx hok

/-- C2 counterexample: day 2 delivers the rank batch `[5, 5]`; the merged
list becomes `[3, 5, 5]`, which has a duplicate — refuting "contains no
duplicate rank values" as an unconditional invariant. -/
theorem c2_counterexample :
    alookup2 (get_titles_by_date_range cPD storDup cRS
      "2024-01-01" "2024-01-02" none none none).title_info "s" "t"
      = some ⟨10, 20, 3, [3, 5, 5], "u", "", []⟩
    ∧ ¬ ([3, 5, 5] : List Nat).Nodup := by
  exact ⟨by decide, by decide⟩

/-- C2 witness: the amended theorem applied to the one-day storage
`storOne`, whose only rank batch `[3]` is duplicate-free. -/
theorem c2_witness :
    (∃ tail, (mergeItem (createInfo itOne) itTwo).ranks
        = (createInfo itOne).ranks ++ tail ∧ ∀ r ∈ tail, r ∉ (createInfo itOne).ranks)
    ∧ RecordsSat (fun i => i.ranks.Nodup)
        (get_titles_by_date_range cPD storOne cRS "2024-01-01" "2024-01-03" none none none) :=
  ⟨c2_amended.1 (createInfo itOne) itTwo,
   c2_amended.2.1 cPD storOne cRS "2024-01-01" "2024-01-03" none none none
     (storage_single_ok (ndOf itOne) _ (by decide))⟩

/-! ### C4 — time bounds under merging -/

theorem mergeItem_time (i : TitleInfo) (it : TitleItem)
    (h1 : i.first_time ≤ i.last_time) (h2 : effFirst it ≤ effLast it) :
    (mergeItem i it).first_time ≤ (mergeItem i it).last_time := by
  unfold mergeItem
  dsimp only
  split_ifs <;> omega

/-- C4 (amended): merging observations carrying `(T1, T3)` and `(T2, T2)`
with `T1 < T2 < T3` yields `first_time = T1, last_time = T3` in either
order; and `first_time ≤ last_time` holds for every aggregated record
provided every item the storage delivers has its effective first time
(`first_time or crawl_time`) ≤ its effective last time.  (An item
claiming a first time after its last time carries the inversion into the
record, which is why the invariant needs that hypothesis.) -/
theorem c4_amended :
    (∀ (A B : TitleItem) (T1 T2 T3 : Nat), T1 < T2 → T2 < T3 →
       effFirst A = T1 → effLast A = T3 → effFirst B = T2 → effLast B = T2 →
       (mergeItem (createInfo A) B).first_time = T1
       ∧ (mergeItem (createInfo A) B).last_time = T3
       ∧ (mergeItem (createInfo B) A).first_time = T1
       ∧ (mergeItem (createInfo B) A).last_time = T3)
    ∧ (∀ (parseDate : DateParse) (storage : TitleStorage) (rsearch : RegexSearch)
        (sd ed : String) (pids : Option (List String)) (q rx : Option String),
        StorageItemsOK (fun it => effFirst it ≤ effLast it) storage →
        RecordsSat (fun i => i.first_time ≤ i.last_time)
          (get_titles_by_date_range parseDate storage rsearch sd ed pids q rx)) := by
  constructor
  · intro A B T1 T2 T3 h12 h23 hA1 hA3 hB2 hB2'
    unfold mergeItem createInfo
    dsimp only
    simp only [hA1, hA3, hB2, hB2']
    refine ⟨?_, ?_, ?_, ?_⟩ <;> split_ifs <;> omega
  · intro parseDate storage rsearch sd ed pids q rx hok
    exact get_titles_sat _ _ (fun it h => h)
      (fun i it hi hit => mergeItem_time i it hi hit)
      parseDate storage rsearch sd ed pids q rx hok

/-- C4 counterexample: a single malformed observation with
`first_time = 2, last_time = 1` produces an aggregated record violating
`first_time ≤ last_time` — refuting the unconditional invariant. -/
theorem c4_counterexample :
    alookup2 (get_titles_by_date_range cPD storBad cRS
      "2024-01-01" "2024-01-01" none none none).title_info "s" "t"
      = some ⟨2, 1, 1, [3], "", "", []⟩
    ∧ ¬ ((2 : Nat) ≤ 1) := by
  exact ⟨by decide, by decide⟩

/-- C4 witness: the amended theorem at `T1 = 1, T2 = 5, T3 = 9` and at the
well-formed one-day storage `storOne`. -/
theorem c4_witness :
    ((mergeItem (createInfo itT1T3) itT2).first_time = 1
     ∧ (mergeItem (createInfo itT1T3) itT2).last_time = 9
     ∧ (mergeItem (createInfo itT2) itT1T3).first_time = 1
     ∧ (mergeItem (createInfo itT2) itT1T3).last_time = 9)
    ∧ RecordsSat (fun i => i.first_time ≤ i.last_time)
        (get_titles_by_date_range cPD storOne cRS "2024-01-01" "2024-01-03" none none none) :=
  ⟨c4_amended.1 itT1T3 itT2 1 5 9 (by decide) (by decide) rfl rfl rfl rfl,
   c4_amended.2 cPD storOne cRS "2024-01-01" "2024-01-03" none none none
     (storage_single_ok (ndOf itOne) _ (by decide))⟩

/-! ### C1 — the results projection is not frozen at creation -/

/-- C1 (amended): at every point of every aggregation run the minimal
`results` map is exactly the `{ranks, url, mobileUrl}` projection of the
full record map — the `ranks` list is physically shared between the two
maps in the source, so rank merges ARE visible through `results`, while
`url`/`mobileUrl` keep their creation values only because no merge ever
reassigns them (in either map); the fields that change only in the full
record (`first_time`, `last_time`, `count`, `rank_timeline`) are the ones
the projection does not carry. -/
theorem c1_amended :
    (∀ (parseDate : DateParse) (storage : TitleStorage) (rsearch : RegexSearch)
       (sd ed : String) (pids : Option (List String)) (q rx : Option String),
       (get_titles_by_date_range parseDate storage rsearch sd ed pids q rx).results
         = mapVals (mapVals projEntry)
             (get_titles_by_date_range parseDate storage rsearch sd ed pids q rx).title_info)
    ∧ (∀ (i : TitleInfo) (it : TitleItem),
       (mergeItem i it).url = i.url ∧ (mergeItem i it).mobileUrl = i.mobileUrl) :=
  ⟨fun parseDate storage rsearch sd ed pids q rx =>
     get_titles_mirror parseDate storage rsearch sd ed pids q rx,
   fun _ _ => ⟨rfl, rfl⟩⟩

/-- C1 counterexample: over the two-day fixture the results entry for
`("s", "t")` ends with `ranks = [3, 5]`, not the `[3]` it was created
with on day 1 (the one-day run shows the creation value) — so a later
merge IS reflected in the minimal results projection. -/
theorem c1_counterexample :
    alookup2 (get_titles_by_date_range cPD stor12 cRS
      "2024-01-01" "2024-01-02" none none none).results "s" "t"
      = some ⟨[3, 5], "u", ""⟩
    ∧ alookup2 (get_titles_by_date_range cPD stor12 cRS
      "2024-01-01" "2024-01-01" none none none).results "s" "t"
      = some ⟨[3], "u", ""⟩
    ∧ (⟨[3, 5], "u", ""⟩ : ResultEntry) ≠ ⟨[3], "u", ""⟩ := by
  exact ⟨by decide, by decide, by decide⟩

/-! ### C6 / C7 — properties of every emitted word group -/

theorem mkGroup_ok (ga : Option String) (acc : GroupAcc)
    (h : (acc.required.isEmpty && acc.normal.isEmpty) = false) :
    EmittedGroupOK (mkGroup ga acc) := by
  constructor
  · show (if aliasTruthy ga then ga
      else
        let parts := (acc.normal ++ acc.required).map tokenDisplayPart
        if parts.isEmpty then none
        else some (joinWith [' ', '/', ' '] parts)).isSome = true
    by_cases ht : aliasTruthy ga = true
    · rw [if_pos ht]
      cases ga with
      | none => simp [aliasTruthy] at ht
      | some a => rfl
    · rw [if_neg ht]
      simp
      intro hn hr
      rw [hn, hr] at h
      simp at h
  · show (if ! acc.normal.isEmpty then joinWith [' '] (acc.normal.map WordToken.word)
      else joinWith [' '] (acc.required.map WordToken.word)) = _
    cases hn : acc.normal.isEmpty <;> simp [mkGroup, hn]

theorem emitGroup_mem (ga : Option String) (acc : GroupAcc) (st' : RuleState) :
    ∀ g ∈ (emitGroup ga acc st').processed_groups,
      g ∈ st'.processed_groups ∨ EmittedGroupOK g := by
  intro g hg
  unfold emitGroup at hg
  by_cases h : (acc.required.isEmpty && acc.normal.isEmpty) = true
  · rw [if_pos h] at hg
    exact Or.inl hg
  · rw [if_neg h] at hg
    simp only [List.mem_append, List.mem_singleton] at hg
    rcases hg with hg | hg
    · exact Or.inl hg
    · subst hg
      exact Or.inr (mkGroup_ok ga acc (Bool.not_eq_true _ ▸ eq_false_of_ne_true h))

theorem processBlock_groups_mem (ok : RegexCompiles) (st : RuleState) (block : String) :
    ∀ g ∈ (processBlock ok st block).processed_groups,
      g ∈ st.processed_groups ∨ EmittedGroupOK g := by
  intro g
  unfold processBlock
  dsimp only
  repeat' split
  all_goals
    first
      | exact fun hg => Or.inl hg
      | (intro hg
         rcases emitGroup_mem _ _ _ g hg with h | h
         · exact Or.inl h
         · exact Or.inr h)

theorem parse_groups_ok (ok : RegexCompiles) (rs : List String) :
    ∀ g ∈ (parse_frequency_rules ok rs).1, EmittedGroupOK g := by
  unfold parse_frequency_rules
  dsimp only
  have key : ∀ (blocks : List String) (st : RuleState),
      (∀ g ∈ st.processed_groups, EmittedGroupOK g) →
      ∀ g ∈ (blocks.foldl (processBlock ok) st).processed_groups, EmittedGroupOK g := by
    intro blocks
    induction blocks with
    | nil => intro st h; exact h
    | cons b rest ih =>
        intro st h
        rw [List.foldl_cons]
        refine ih _ ?_
        intro g hg
        rcases processBlock_groups_mem ok st b g hg with h' | h'
        · exact h g h'
        · exact h'
  refine key _ _ ?_
  intro g hg
  simp at hg

/-- C6 counterexample: the alias-free rule `"ai\nchip"`, whose tokens
carry no `=>`-derived alias, is emitted with `display_name = "ai / chip"`
(the token texts), where the claimed resolution yields null. -/
theorem c6_counterexample :
    (parse_frequency_rules (fun _ => false) ["ai\nchip"]).1
      = [{ required := []
           normal := [⟨"ai", false, none, none⟩, ⟨"chip", false, none, none⟩]
           group_key := "ai chip", display_name := some "ai / chip", max_count := 0 }]
    ∧ displayNameClaimed none
        [⟨"ai", false, none, none⟩, ⟨"chip", false, none, none⟩] = none
    ∧ some "ai / chip" ≠ (none : Option String) := by
  exact ⟨by decide, by decide, by decide⟩

/-- C6 (amended): a truthy explicit alias wins; otherwise the display
name is each contributing token's `=>`-derived alias WHEN IT HAS ONE,
else the token's own text, joined with `" / "`; and since an emitted
group always has a contributing token, the null case never occurs — every
emitted group carries a non-null display name. -/
theorem c6_amended :
    (∀ (ok : RegexCompiles) (rs : List String) (g : WordGroup),
        g ∈ (parse_frequency_rules ok rs).1 → g.display_name.isSome = true)
    ∧ (∀ ok : RegexCompiles, (parse_frequency_rules ok ["ai => AI\nchip"]).1
        = [{ required := []
             normal := [⟨"ai", false, none, some "AI"⟩, ⟨"chip", false, none, none⟩]
             group_key := "ai chip", display_name := some "AI / chip", max_count := 0 }])
    ∧ (∀ ok : RegexCompiles, (parse_frequency_rules ok ["[Tech]\nai => AI"]).1
        = [{ required := []
             normal := [⟨"ai", false, none, some "AI"⟩]
             group_key := "ai", display_name := some "Tech", max_count := 0 }]) :=
  ⟨fun ok rs g hg => (parse_groups_ok ok rs g hg).1,
   fun _ => rfl, fun _ => rfl⟩

/-- C6 witness: the membership hypothesis discharged on the concrete
mixed-alias rule. -/
theorem c6_witness :
    gAI ∈ (parse_frequency_rules (fun _ => false) ["ai => AI\nchip"]).1
    ∧ gAI.display_name.isSome = true :=
  ⟨by decide,
   c6_amended.1 (fun _ => false) ["ai => AI\nchip"] gAI (by decide)⟩

/-- C7: the rule document `"[Tech News]\nai\nchip"` emits exactly one
group, with `display_name = "Tech News"` and `group_key = "ai chip"`; and
in general every emitted group's `group_key` is the space-joined token
text of its normal tokens when any exist, else of its required tokens. -/
theorem c7_alias_and_group_key :
    (∀ ok : RegexCompiles, parse_frequency_rules ok ["[Tech News]\nai\nchip"]
       = ([{ required := []
             normal := [⟨"ai", false, none, none⟩, ⟨"chip", false, none, none⟩]
             group_key := "ai chip", display_name := some "Tech News"
             max_count := 0 }], [], []))
    ∧ (∀ (ok : RegexCompiles) (rs : List String) (g : WordGroup),
        g ∈ (parse_frequency_rules ok rs).1 →
        g.group_key = (if g.normal.isEmpty
          then joinWith [' '] (g.required.map WordToken.word)
          else joinWith [' '] (g.normal.map WordToken.word))) :=
  ⟨fun _ => rfl, fun ok rs g hg => (parse_groups_ok ok rs g hg).2⟩

/-- C7 witness: the membership hypothesis discharged on the `"Tech News"`
rule itself. -/
theorem c7_witness :
    gTech ∈ (parse_frequency_rules (fun _ => false) ["[Tech News]\nai\nchip"]).1
    ∧ gTech.group_key = (if gTech.normal.isEmpty
        then joinWith [' '] (gTech.required.map WordToken.word)
        else joinWith [' '] (gTech.normal.map WordToken.word)) :=
  ⟨by decide,
   c7_alias_and_group_key.2 (fun _ => false) ["[Tech News]\nai\nchip"] gTech (by decide)⟩

end TrendRadar
